import Mathlib

/-
Verification of the Personal Care API persistence layer (src/main.py, with the
health-check variant of src/main_backup.py).  The service is a stateless
gateway over two MongoDB collections, `backups` (keyed by user id) and
`schedules` (keyed by schedule id).  We embed the store as two Lean lists of
raw documents, the MongoDB primitives `replace_one`, `delete_one` and `find_one` as list
operations on the first match, pydantic validation as `Option`-returning
decoders, and each endpoint handler as a pure function threading the store
state, with the server clock (`datetime.utcnow().isoformat()`) passed in as a
string argument.
-/

set_option autoImplicit false

namespace PCare

/-- Validated user record, mirroring pydantic `UserModel` in `src/main.py`
(all four fields required strings). -/
structure UserModel where
  id : String
  email : String
  name : String
  created_at : String
  deriving DecidableEq, Repr

/-- Validated schedule record, mirroring pydantic `ScheduleModel` in
`src/main.py`.  `updated_at` and `end_date` are `Optional[str] = None`,
hence `Option String`; every other field is required. -/
structure ScheduleModel where
  id : String
  user_id : String
  title : String
  description : String
  scheduled_time : String
  frequency : String
  notification_tone : String
  is_active : Bool
  created_at : String
  updated_at : Option String := none
  end_date : Option String := none
  completed_dates : String
  is_completed : Bool
  deriving DecidableEq, Repr

/-- Raw stored form of a user subdocument: MongoDB enforces no schema, so any
field may be absent (`none`). -/
structure RawUser where
  id : Option String := none
  email : Option String := none
  name : Option String := none
  created_at : Option String := none
  deriving DecidableEq, Repr

/-- Raw stored form of a schedule document: any field may be absent.  For the
two pydantic-optional fields absence and `None` coincide. -/
structure RawSchedule where
  id : Option String := none
  user_id : Option String := none
  title : Option String := none
  description : Option String := none
  scheduled_time : Option String := none
  frequency : Option String := none
  notification_tone : Option String := none
  is_active : Option Bool := none
  created_at : Option String := none
  updated_at : Option String := none
  end_date : Option String := none
  completed_dates : Option String := none
  is_completed : Option Bool := none
  deriving DecidableEq, Repr

/-- Serialization `user.dict()` of a validated user. -/
def UserModel.toRaw (u : UserModel) : RawUser :=
  ⟨some u.id, some u.email, some u.name, some u.created_at⟩

/-- Serialization `schedule.dict()` of a validated schedule. -/
def ScheduleModel.toRaw (s : ScheduleModel) : RawSchedule :=
  ⟨some s.id, some s.user_id, some s.title, some s.description,
   some s.scheduled_time, some s.frequency, some s.notification_tone,
   some s.is_active, some s.created_at, s.updated_at, s.end_date,
   some s.completed_dates, some s.is_completed⟩

/-- Pydantic shape validation `UserModel(**raw)`: succeeds exactly when every
required field is present. -/
def validateUser (r : RawUser) : Option UserModel :=
  match r.id, r.email, r.name, r.created_at with
  | some i, some e, some n, some c => some ⟨i, e, n, c⟩
  | _, _, _, _ => none

/-- Pydantic shape validation `ScheduleModel(**raw)`: succeeds exactly when
every required field is present; the two optional fields pass through. -/
def validateSchedule (r : RawSchedule) : Option ScheduleModel :=
  match r.id, r.user_id, r.title, r.description, r.scheduled_time, r.frequency,
        r.notification_tone, r.is_active, r.created_at, r.completed_dates,
        r.is_completed with
  | some i, some u, some t, some d, some st, some f, some nt, some ia, some ca,
    some cd, some ic =>
      some ⟨i, u, t, d, st, f, nt, ia, ca, r.updated_at, r.end_date, cd, ic⟩
  | _, _, _, _, _, _, _, _, _, _, _ => none

/-- The list comprehension `[ScheduleModel(**s) for s in docs]` inside a
`try`: the first validation failure aborts the whole list. -/
def validateSchedules : List RawSchedule → Option (List ScheduleModel)
  | [] => some []
  | r :: rs =>
    match validateSchedule r, validateSchedules rs with
    | some m, some ms => some (m :: ms)
    | _, _ => none

/-- A document of the `backups` collection, as built by `backup_user_data`
(`backup_doc` in `src/main.py`). -/
structure BackupDoc where
  user_id : String
  user : RawUser
  schedules : List RawSchedule
  backup_date : String
  created_at : String
  updated_at : String
  deriving DecidableEq, Repr

/-- Request body of `POST /backup`, mirroring pydantic `BackupDataModel`. -/
structure BackupDataModel where
  user : UserModel
  schedules : List ScheduleModel
  backup_date : String
  deriving DecidableEq, Repr

/-- Response body of `GET /restore/{user_id}`, mirroring
`RestoreDataResponse`. -/
structure RestoreDataResponse where
  user : UserModel
  schedules : List ScheduleModel
  backup_date : String
  deriving DecidableEq, Repr

/-- The store state: the two collections used by the service. -/
structure DB where
  backups : List BackupDoc
  schedules : List RawSchedule
  deriving DecidableEq, Repr

/-- The store before any write. -/
def DB.empty : DB := ⟨[], []⟩

/-- MongoDB `replace_one(filter, new, upsert=True)`: replace the first
document matching the filter in place, or append the new document when none
matches. -/
def replaceOne {α : Type} (p : α → Bool) (new : α) : List α → List α
  | [] => [new]
  | a :: as => if p a then new :: as else a :: replaceOne p new as

/-- MongoDB `delete_one(filter)`: remove the first matching document and
report `deleted_count` (1 when a match existed, 0 otherwise). -/
def deleteOne {α : Type} (p : α → Bool) : List α → Nat × List α
  | [] => (0, [])
  | a :: as =>
    if p a then (1, as)
    else
      let r := deleteOne p as
      (r.1, a :: r.2)

/-- FastAPI `HTTPException(status_code, detail)`. -/
structure HTTPException where
  status_code : Nat
  detail : String
  deriving DecidableEq, Repr

/-- Success body of `POST /backup`; `upserted` stands for
`result.upserted_id` being non-null (a fresh insert rather than a replace). -/
structure BackupResponse where
  success : Bool
  message : String
  upserted : Bool
  user_id : String
  deriving DecidableEq, Repr

/-- Success body of `POST /schedules`. -/
structure ScheduleResponse where
  success : Bool
  message : String
  schedule_id : String
  deriving DecidableEq, Repr

/-- Success body of `DELETE /schedules/{schedule_id}`. -/
structure DeleteResponse where
  success : Bool
  message : String
  schedule_id : String
  deriving DecidableEq, Repr

/-- The `backup_doc` dictionary built by `backup_user_data` in `src/main.py`
(lines 109-116).  The code calls `datetime.utcnow()` separately for
`created_at` and `updated_at`; both stand for the time of this call and are
modelled by the single argument `now`. -/
def mkBackupDoc (data : BackupDataModel) (now : String) : BackupDoc :=
  { user_id := data.user.id
    user := data.user.toRaw
    schedules := data.schedules.map ScheduleModel.toRaw
    backup_date := data.backup_date
    created_at := now
    updated_at := now }

/-- Endpoint `POST /backup` (`backup_user_data`, `src/main.py` lines 101-134):
upsert-replace the one backup document keyed by `user_id`. -/
def backup_user_data (db : DB) (data : BackupDataModel) (now : String) :
    BackupResponse × DB :=
  let p : BackupDoc → Bool := fun b => b.user_id == data.user.id
  ({ success := true
     message := "Data backed up successfully"
     upserted := (db.backups.find? p).isNone
     user_id := data.user.id },
   { db with backups := replaceOne p (mkBackupDoc data now) db.backups })

/-- Endpoint `GET /restore/{user_id}` (`restore_user_data`, `src/main.py` lines
136-159): read-only; 404 when no backup document matches, 500 when the stored
user or any stored schedule fails validation while rebuilding the response
(the Python detail string carries the exception text; here it is the static
prefix). -/
def restore_user_data (db : DB) (user_id : String) :
    Except HTTPException RestoreDataResponse :=
  match db.backups.find? (fun b => b.user_id == user_id) with
  | none => .error ⟨404, "No backup found for this user"⟩
  | some doc =>
    match validateUser doc.user, validateSchedules doc.schedules with
    | some u, some ss => .ok ⟨u, ss, doc.backup_date⟩
    | _, _ => .error ⟨500, "Restore failed"⟩

/-- Endpoint `POST /schedules` (`create_or_update_schedule`, `src/main.py` lines
161-192, identical logic in `src/main_backup.py` lines 119-148): stamp
`updated_at` with the current time, keep the stored `created_at` when a
document with this id already exists (`existing.get("created_at", now)`),
stamp it fresh otherwise, then upsert-replace keyed by schedule id. -/
def create_or_update_schedule (db : DB) (schedule : ScheduleModel)
    (now : String) : ScheduleResponse × DB :=
  let p : RawSchedule → Bool := fun d => d.id == some schedule.id
  let created : String :=
    match db.schedules.find? p with
    | some existing => existing.created_at.getD now
    | none => now
  let doc : RawSchedule :=
    { schedule.toRaw with updated_at := some now, created_at := some created }
  ({ success := true
     message := "Schedule synced successfully"
     schedule_id := schedule.id },
   { db with schedules := replaceOne p doc db.schedules })

/-- Endpoint `GET /schedules/{user_id}` (`get_user_schedules`, `src/main.py` lines
194-218): read-only; fetch every document whose `user_id` field matches, then
validate each one separately, silently dropping the ones that fail. -/
def get_user_schedules (db : DB) (user_id : String) : List ScheduleModel :=
  (db.schedules.filter fun d => d.user_id == some user_id).filterMap
    validateSchedule

/-- Endpoint `DELETE /schedules/{schedule_id}` (`delete_schedule`, `src/main.py` lines
220-243): delete the first matching document; 404 when `deleted_count` is
zero. -/
def delete_schedule (db : DB) (schedule_id : String) :
    Except HTTPException DeleteResponse × DB :=
  let r := deleteOne (fun d => d.id == some schedule_id) db.schedules
  (if r.1 = 0 then .error ⟨404, "Schedule not found"⟩
   else .ok ⟨true, "Schedule deleted successfully", schedule_id⟩,
   { db with schedules := r.2 })

/-- Health-probe body `{status, database, timestamp}`. -/
structure HealthBody where
  status : String
  database : String
  timestamp : String
  deriving DecidableEq, Repr

/-- Endpoint `GET /health` (`health_check`, `src/main.py` lines 245-260):
`dbAvailable` is `database is not None` inside `get_database`, `pingOk` is
the outcome of `db.command("ping")`.  Any failure, including the 503 raised
by `get_database` itself, is caught and re-raised as a 503 (the Python detail
carries the exception text; here it is the static prefix). -/
def health_check (dbAvailable pingOk : Bool) (now : String) :
    Except HTTPException HealthBody :=
  if dbAvailable then
    if pingOk then .ok ⟨"healthy", "connected", now⟩
    else .error ⟨503, "Database connection failed"⟩
  else .error ⟨503, "Database connection failed"⟩

/-- Endpoint `GET /health` in the defensive variant (`health_check`,
`src/main_backup.py` lines 96-117): every failure, lazy connection included,
is reported as a 200 response whose body carries status `unhealthy`;
`pingOk` covers both the lazy initialization and the ping round-trip. -/
def health_check_defensive (pingOk : Bool) (now : String) : HealthBody :=
  if pingOk then ⟨"healthy", "connected", now⟩
  else ⟨"unhealthy", "disconnected", now⟩

/-- An API call reaching the store, with its clock argument where the handler
reads the clock. -/
inductive Op where
  | backup (data : BackupDataModel) (now : String)
  | upsertSchedule (schedule : ScheduleModel) (now : String)
  | restore (user_id : String)
  | listSchedules (user_id : String)
  | deleteSchedule (schedule_id : String)

/-- State transition of one API call: `restore` and `listSchedules` issue
only `find` queries in the source, so they leave the store untouched. -/
def applyOp (db : DB) : Op → DB
  | .backup data now => (backup_user_data db data now).2
  | .upsertSchedule s now => (create_or_update_schedule db s now).2
  | .restore _ => db
  | .listSchedules _ => db
  | .deleteSchedule sid => (delete_schedule db sid).2

/-- State after a sequence of API calls. -/
def applyOps (db : DB) : List Op → DB
  | [] => db
  | op :: ops => applyOps (applyOp db op) ops

/-- After an upsert-replace whose replacement satisfies the filter, the
filter finds exactly the replacement. -/
theorem find?_replaceOne {α : Type} (p : α → Bool) (x : α) (hx : p x = true)
    (l : List α) : (replaceOne p x l).find? p = some x := by
  induction l with
  | nil => simp [replaceOne, hx]
  | cons a as ih =>
    by_cases h : p a
    · simp [replaceOne, h, hx]
    · simp [replaceOne, h, ih]

/-- An upsert-replace whose replacement satisfies the filter brings the
count of matching documents from zero to one and otherwise keeps it. -/
theorem countP_replaceOne_self {α : Type} (p : α → Bool) (x : α)
    (hx : p x = true) (l : List α) :
    (replaceOne p x l).countP p = max 1 (l.countP p) := by
  induction l with
  | nil => simp [replaceOne, hx]
  | cons a as ih =>
    by_cases h : p a
    · simp [replaceOne, h, hx, List.countP_cons]
    · simp [replaceOne, h, List.countP_cons, ih]

/-- An upsert-replace does not change the count of documents matching a
predicate disjoint from the filter and not satisfied by the replacement. -/
theorem countP_replaceOne_other {α : Type} (p q : α → Bool) (x : α)
    (hq : q x = false) (hpq : ∀ a, p a = true → q a = false) (l : List α) :
    (replaceOne p x l).countP q = l.countP q := by
  induction l with
  | nil => simp [replaceOne, hq]
  | cons a as ih =>
    by_cases h : p a
    · simp [replaceOne, h, List.countP_cons, hq, hpq a h]
    · simp [replaceOne, h, List.countP_cons, ih]

/-- MongoDB `delete_one` in list form: the deleted count is one exactly when
the filter finds a document, and the collection loses its first match. -/
theorem deleteOne_eq {α : Type} (p : α → Bool) (l : List α) :
    deleteOne p l = (if (l.find? p).isSome then 1 else 0, l.eraseP p) := by
  induction l with
  | nil => simp [deleteOne]
  | cons a as ih =>
    by_cases h : p a
    · simp [deleteOne, h, List.eraseP_cons_of_pos, List.find?_cons_of_pos]
    · simp [deleteOne, h, List.eraseP_cons_of_neg, List.find?_cons_of_neg, ih]

/-- Erasing the first match never increases the count of documents matching
any predicate. -/
theorem countP_eraseP_le {α : Type} (p q : α → Bool) (l : List α) :
    (l.eraseP p).countP q ≤ l.countP q := by
  induction l with
  | nil => simp
  | cons a as ih =>
    by_cases h : p a
    · simp [List.eraseP_cons_of_pos, h, List.countP_cons]
    · simp [List.eraseP_cons_of_neg, h, List.countP_cons]
      omega

/-- Deleting never increases the number of documents matching any
predicate. -/
theorem countP_deleteOne_le {α : Type} (p q : α → Bool) (l : List α) :
    ((deleteOne p l).2).countP q ≤ l.countP q := by
  rw [deleteOne_eq]
  simpa using countP_eraseP_le p q l

/-- Each output of a per-element decode folded into a filtered sequence is
charged to a distinct input, so output counts are bounded by input counts. -/
theorem countP_filterMap_le {α β : Type} (f : α → Option β) (p : β → Bool)
    (q : α → Bool) (h : ∀ a b, f a = some b → p b = true → q a = true)
    (l : List α) : (l.filterMap f).countP p ≤ l.countP q := by
  induction l with
  | nil => simp
  | cons a as ih =>
    cases hf : f a with
    | none => simp [List.filterMap_cons, hf, List.countP_cons]; omega
    | some b =>
      by_cases hp : p b
      · have := h a b hf hp
        simp [List.filterMap_cons, hf, List.countP_cons, hp, this]
        omega
      · simp [List.filterMap_cons, hf, List.countP_cons, hp]
        omega

/-- Serializing a validated user and validating it back is the identity. -/
theorem validateUser_toRaw (u : UserModel) : validateUser u.toRaw = some u :=
  rfl

/-- Serializing a validated schedule and validating it back is the
identity. -/
theorem validateSchedule_toRaw (s : ScheduleModel) :
    validateSchedule s.toRaw = some s := rfl

/-- Serializing a list of validated schedules and validating it back is the
identity. -/
theorem validateSchedules_map_toRaw (l : List ScheduleModel) :
    validateSchedules (l.map ScheduleModel.toRaw) = some l := by
  induction l with
  | nil => rfl
  | cons s ss ih => simp [validateSchedules, validateSchedule_toRaw, ih]

/-- One invalid entry poisons the whole-list validation. -/
theorem validateSchedules_eq_none {r : RawSchedule} {l : List RawSchedule}
    (hmem : r ∈ l) (hr : validateSchedule r = none) :
    validateSchedules l = none := by
  induction l with
  | nil => cases hmem
  | cons a as ih =>
    rcases List.mem_cons.mp hmem with h | h
    · subst h; simp [validateSchedules, hr]
    · cases ha : validateSchedule a <;> simp [validateSchedules, ha, ih h]

/-- Restoring right after a backup returns exactly the snapshot that was
backed up. -/
theorem restore_backup_aux (db : DB) (data : BackupDataModel) (now : String) :
    restore_user_data (backup_user_data db data now).2 data.user.id =
      .ok ⟨data.user, data.schedules, data.backup_date⟩ := by
  unfold restore_user_data backup_user_data
  rw [find?_replaceOne _ _ (by simp [mkBackupDoc])]
  simp [mkBackupDoc, validateUser_toRaw, validateSchedules_map_toRaw]

/-- Store state left by a backup call, spelled out. -/
theorem backup_user_data_db (db : DB) (data : BackupDataModel) (now : String) :
    (backup_user_data db data now).2 =
      { db with
        backups := replaceOne (fun b => b.user_id == data.user.id)
          (mkBackupDoc data now) db.backups } := rfl

/-- Timestamp the upsert stores in `created_at`: the value already stored
when a document with this schedule id exists and carries one
(`existing.get("created_at", now)`), the current time otherwise. -/
def createdAtAfter (db : DB) (s : ScheduleModel) (now : String) : String :=
  match db.schedules.find? (fun d => d.id == some s.id) with
  | some existing => existing.created_at.getD now
  | none => now

/-- Document the upsert writes: the serialized input with `updated_at`
restamped and `created_at` replaced by the preserved value. -/
def upsertDoc (db : DB) (s : ScheduleModel) (now : String) : RawSchedule :=
  { s.toRaw with
    updated_at := some now
    created_at := some (createdAtAfter db s now) }

/-- Store state left by a schedule upsert, spelled out. -/
theorem create_or_update_schedule_db (db : DB) (s : ScheduleModel)
    (now : String) :
    (create_or_update_schedule db s now).2 =
      { db with
        schedules := replaceOne (fun d => d.id == some s.id)
          (upsertDoc db s now) db.schedules } := rfl

/-- Store state left by a delete call, spelled out. -/
theorem delete_schedule_db (db : DB) (schedule_id : String) :
    (delete_schedule db schedule_id).2 =
      { db with
        schedules :=
          (deleteOne (fun d => d.id == some schedule_id) db.schedules).2 } :=
  rfl

/-- After a schedule upsert, looking the schedule id up finds the document
that was just written. -/
theorem find?_after_upsert (db : DB) (s : ScheduleModel) (now : String) :
    (create_or_update_schedule db s now).2.schedules.find?
        (fun d => d.id == some s.id) = some (upsertDoc db s now) := by
  rw [create_or_update_schedule_db]
  exact find?_replaceOne _ _ (by simp [upsertDoc, ScheduleModel.toRaw]) _

/-- Concrete user for witnesses. -/
def sampleUser : UserModel :=
  { id := "u1", email := "u1@example.com", name := "User One"
    created_at := "2024-01-01" }

/-- Concrete schedule for witnesses, parametrized by id and client-supplied
creation timestamp. -/
def sampleSchedule (i ca : String) : ScheduleModel :=
  { id := i, user_id := "u1", title := "Take meds"
    description := "Morning dose", scheduled_time := "08:00"
    frequency := "daily", notification_tone := "chime", is_active := true
    created_at := ca, completed_dates := "[]", is_completed := false }

/-- Concrete backup snapshot for witnesses. -/
def sampleBackup : BackupDataModel :=
  ⟨sampleUser, [sampleSchedule "s1" "2024-01-01", sampleSchedule "s2" "2024-01-02"],
   "2024-06-01"⟩

/-- Concrete store holding one schedule document for witnesses. -/
def sampleDB : DB := ⟨[], [(sampleSchedule "s1" "2024-01-01").toRaw]⟩

/-- C1: on an upsert whose schedule id already has a stored document, the
stored `created_at` survives and the incoming one is discarded, while
`updated_at` is stamped to the time of this call; on a fresh id, `created_at`
is stamped to the time of this call. -/
theorem upsert_schedule_preserves_created_at (db : DB) (s : ScheduleModel)
    (now : String) :
    (∀ e c, db.schedules.find? (fun d => d.id == some s.id) = some e →
      e.created_at = some c →
      ∃ d, (create_or_update_schedule db s now).2.schedules.find?
          (fun d => d.id == some s.id) = some d ∧
        d.created_at = some c ∧ d.updated_at = some now) ∧
    (db.schedules.find? (fun d => d.id == some s.id) = none →
      ∃ d, (create_or_update_schedule db s now).2.schedules.find?
          (fun d => d.id == some s.id) = some d ∧
        d.created_at = some now ∧ d.updated_at = some now) := by
  constructor
  · intro e c hfind hca
    refine ⟨_, find?_after_upsert db s now, ?_, rfl⟩
    simp [upsertDoc, createdAtAfter, hfind, hca]
  · intro hfind
    refine ⟨_, find?_after_upsert db s now, ?_, rfl⟩
    simp [upsertDoc, createdAtAfter, hfind]

/-- Witness for C1 at concrete inputs: an update with a different
client-supplied `created_at` keeps the stored value, and a fresh insert
stamps the call time. -/
theorem upsert_schedule_preserves_created_at_witness :
    (sampleDB.schedules.find? (fun d => d.id == some "s1") =
        some (sampleSchedule "s1" "2024-01-01").toRaw ∧
      ∃ d, (create_or_update_schedule sampleDB (sampleSchedule "s1" "2099-01-01")
            "2024-07-01T10:00:00").2.schedules.find?
          (fun d => d.id == some "s1") = some d ∧
        d.created_at = some "2024-01-01" ∧
        d.updated_at = some "2024-07-01T10:00:00") ∧
    (DB.empty.schedules.find? (fun d => d.id == some "s9") = none ∧
      ∃ d, (create_or_update_schedule DB.empty (sampleSchedule "s9" "2099-01-01")
            "2024-07-02T10:00:00").2.schedules.find?
          (fun d => d.id == some "s9") = some d ∧
        d.created_at = some "2024-07-02T10:00:00" ∧
        d.updated_at = some "2024-07-02T10:00:00") :=
  ⟨⟨rfl, (upsert_schedule_preserves_created_at sampleDB
      (sampleSchedule "s1" "2099-01-01") "2024-07-01T10:00:00").1
      (sampleSchedule "s1" "2024-01-01").toRaw "2024-01-01" rfl rfl⟩,
   ⟨rfl, (upsert_schedule_preserves_created_at DB.empty
      (sampleSchedule "s9" "2099-01-01") "2024-07-02T10:00:00").2 rfl⟩⟩

/-- C3: a backup call wholly replaces the backup document for the user id:
after the call the one document the key finds consists exactly of the new
user, schedule list and backup date of the new snapshot, plus the two server stamps,
whether or not a document existed before. -/
theorem backup_replaces_document (db : DB) (data : BackupDataModel)
    (now : String) :
    ∃ d, (backup_user_data db data now).2.backups.find?
        (fun b => b.user_id == data.user.id) = some d ∧
      d = ⟨data.user.id, data.user.toRaw,
           data.schedules.map ScheduleModel.toRaw, data.backup_date, now, now⟩ := by
  refine ⟨mkBackupDoc data now, ?_, rfl⟩
  rw [backup_user_data_db]
  exact find?_replaceOne _ _ (by simp [mkBackupDoc]) _

/-- C4: backing up a snapshot with user U and schedules S1, S2 and then
restoring the id of U returns U, the same two schedules, and the same backup
date. -/
theorem backup_restore_round_trip (db : DB) (U : UserModel)
    (S1 S2 : ScheduleModel) (bd now : String) :
    restore_user_data (backup_user_data db ⟨U, [S1, S2], bd⟩ now).2 U.id =
      .ok ⟨U, [S1, S2], bd⟩ :=
  restore_backup_aux db ⟨U, [S1, S2], bd⟩ now

/-- C5: starting from a store with at most one backup document for the user,
backing the same snapshot up twice leaves exactly one backup document for
that user id, and reading it back (the restore endpoint is the read of this
collection) gives the same result after either call. -/
theorem backup_idempotent (db : DB) (data : BackupDataModel) (t1 t2 : String)
    (h : db.backups.countP (fun b => b.user_id == data.user.id) ≤ 1) :
    ((backup_user_data (backup_user_data db data t1).2 data t2).2.backups.countP
        (fun b => b.user_id == data.user.id) = 1) ∧
    restore_user_data (backup_user_data db data t1).2 data.user.id =
      restore_user_data
        (backup_user_data (backup_user_data db data t1).2 data t2).2
        data.user.id := by
  constructor
  · rw [backup_user_data_db, backup_user_data_db]
    rw [countP_replaceOne_self _ _ (by simp [mkBackupDoc]),
        countP_replaceOne_self _ _ (by simp [mkBackupDoc])]
    omega
  · rw [restore_backup_aux, restore_backup_aux]

/-- Witness for C5 at a concrete snapshot backed up at two different
times. -/
theorem backup_idempotent_witness :
    DB.empty.backups.countP (fun b => b.user_id == sampleBackup.user.id) ≤ 1 ∧
    (((backup_user_data (backup_user_data DB.empty sampleBackup "T1").2
          sampleBackup "T2").2.backups.countP
        (fun b => b.user_id == sampleBackup.user.id) = 1) ∧
      restore_user_data (backup_user_data DB.empty sampleBackup "T1").2
          sampleBackup.user.id =
        restore_user_data
          (backup_user_data (backup_user_data DB.empty sampleBackup "T1").2
            sampleBackup "T2").2
          sampleBackup.user.id) :=
  ⟨by simp [DB.empty],
   backup_idempotent DB.empty sampleBackup "T1" "T2" (by simp [DB.empty])⟩

/-- C6: deleting a schedule id with no matching stored document fails with a
404 and leaves the collection untouched; deleting a matching id returns the
success confirmation carrying the id and removes exactly the matching
document. -/
theorem delete_schedule_spec (db : DB) (sid : String) :
    (db.schedules.find? (fun d => d.id == some sid) = none →
      delete_schedule db sid = (.error ⟨404, "Schedule not found"⟩, db)) ∧
    (∀ e, db.schedules.find? (fun d => d.id == some sid) = some e →
      (delete_schedule db sid).1 =
        .ok ⟨true, "Schedule deleted successfully", sid⟩ ∧
      (delete_schedule db sid).2.schedules =
        db.schedules.eraseP (fun d => d.id == some sid)) := by
  constructor
  · intro hnone
    have hkeep : db.schedules.eraseP (fun d => d.id == some sid) =
        db.schedules :=
      List.eraseP_of_forall_not (by
        intro a ha
        have := List.find?_eq_none.mp hnone a ha
        simpa using this)
    unfold delete_schedule
    rw [deleteOne_eq, hnone]
    simp [hkeep]
  · intro e hsome
    unfold delete_schedule
    rw [deleteOne_eq, hsome]
    simp

/-- Witness for C6: a delete on the empty store 404s and changes nothing; a
delete on a store holding the document succeeds and removes it. -/
theorem delete_schedule_spec_witness :
    (DB.empty.schedules.find? (fun d => d.id == some "s1") = none ∧
      delete_schedule DB.empty "s1" =
        (.error ⟨404, "Schedule not found"⟩, DB.empty)) ∧
    (sampleDB.schedules.find? (fun d => d.id == some "s1") =
        some (sampleSchedule "s1" "2024-01-01").toRaw ∧
      (delete_schedule sampleDB "s1").1 =
        .ok ⟨true, "Schedule deleted successfully", "s1"⟩ ∧
      (delete_schedule sampleDB "s1").2.schedules =
        sampleDB.schedules.eraseP (fun d => d.id == some "s1")) :=
  ⟨⟨rfl, (delete_schedule_spec DB.empty "s1").1 rfl⟩,
   ⟨rfl, (delete_schedule_spec sampleDB "s1").2
      (sampleSchedule "s1" "2024-01-01").toRaw rfl⟩⟩

/-- C7: restoring a user id with no backup document fails with a 404, and
the restore endpoint leaves the store exactly as it was (the handler only
issues `find_one`). -/
theorem restore_not_found_read_only (db : DB) (uid : String) :
    (db.backups.find? (fun b => b.user_id == uid) = none →
      restore_user_data db uid =
        .error ⟨404, "No backup found for this user"⟩) ∧
    applyOp db (.restore uid) = db := by
  refine ⟨?_, rfl⟩
  intro hnone
  unfold restore_user_data
  rw [hnone]

/-- Witness for C7 on the empty store. -/
theorem restore_not_found_read_only_witness :
    DB.empty.backups.find? (fun b => b.user_id == "u1") = none ∧
    restore_user_data DB.empty "u1" =
      .error ⟨404, "No backup found for this user"⟩ ∧
    applyOp DB.empty (.restore "u1") = DB.empty :=
  ⟨rfl, (restore_not_found_read_only DB.empty "u1").1 rfl,
   (restore_not_found_read_only DB.empty "u1").2⟩

/-- C8: a stored schedule document that fails validation is silently
skipped: removing it from the store does not change the list response at
all, and every stored document that matches the user id and validates is
still returned. -/
theorem list_schedules_skips_invalid (bk : List BackupDoc)
    (l1 l2 : List RawSchedule) (bad : RawSchedule) (uid : String)
    (hbad : validateSchedule bad = none) :
    get_user_schedules ⟨bk, l1 ++ bad :: l2⟩ uid =
      get_user_schedules ⟨bk, l1 ++ l2⟩ uid ∧
    (∀ r m, r ∈ l1 ++ bad :: l2 → (r.user_id == some uid) = true →
      validateSchedule r = some m →
      m ∈ get_user_schedules ⟨bk, l1 ++ bad :: l2⟩ uid) := by
  constructor
  · unfold get_user_schedules
    by_cases h : (bad.user_id == some uid) = true
    · simp [List.filter_append, List.filter_cons, h, List.filterMap_append,
        List.filterMap_cons, hbad]
    · simp [List.filter_append, List.filter_cons, h, hbad]
  · intro r m hr hmatch hval
    unfold get_user_schedules
    exact List.mem_filterMap.mpr
      ⟨r, List.mem_filter.mpr ⟨hr, hmatch⟩, hval⟩

/-- Concrete wholly-empty stored document: every required field is
missing. -/
def corruptRaw : RawSchedule := {}

/-- Witness for C8: with one valid and one corrupt document stored under the
same user, the corrupt one is skipped and the valid one returned. -/
theorem list_schedules_skips_invalid_witness :
    validateSchedule corruptRaw = none ∧
    (get_user_schedules ⟨[], [(sampleSchedule "s1" "2024-01-01").toRaw,
        corruptRaw]⟩ "u1" =
      get_user_schedules ⟨[], [(sampleSchedule "s1" "2024-01-01").toRaw]⟩
        "u1" ∧
     (∀ r m,
        r ∈ [(sampleSchedule "s1" "2024-01-01").toRaw] ++ corruptRaw :: [] →
        (r.user_id == some "u1") = true → validateSchedule r = some m →
        m ∈ get_user_schedules ⟨[], [(sampleSchedule "s1" "2024-01-01").toRaw,
            corruptRaw]⟩ "u1")) :=
  ⟨rfl, list_schedules_skips_invalid []
    [(sampleSchedule "s1" "2024-01-01").toRaw] [] corruptRaw "u1" rfl⟩

/-- C9: the health probe reports healthy exactly when the store is reachable
and the ping round-trip succeeds; on any connection failure the eager
variant answers 503 and the defensive variant answers a body with status
`unhealthy` — never a false positive. -/
theorem health_check_reflects_connectivity (dbAvailable pingOk : Bool)
    (now : String) :
    ((∃ b, health_check dbAvailable pingOk now = .ok b ∧
        b.status = "healthy") ↔ dbAvailable = true ∧ pingOk = true) ∧
    ((dbAvailable && pingOk) = false →
      health_check dbAvailable pingOk now =
        .error ⟨503, "Database connection failed"⟩) ∧
    ((health_check_defensive pingOk now).status = "healthy" ↔
      pingOk = true) := by
  cases dbAvailable <;> cases pingOk <;>
    simp [health_check, health_check_defensive]

/-- Witness for C9 with the connection up but the ping failing. -/
theorem health_check_reflects_connectivity_witness :
    ((true && false) = false) ∧
    health_check true false "T" = .error ⟨503, "Database connection failed"⟩ :=
  ⟨rfl, (health_check_reflects_connectivity true false "T").2.1 rfl⟩

/-- C10: when the stored backup document exists but its user subdocument or
any one of its stored schedules fails validation, the whole restore call
fails with a 500 and returns none of the records. -/
theorem restore_no_partial_skip (db : DB) (uid : String) (d : BackupDoc)
    (hfind : db.backups.find? (fun b => b.user_id == uid) = some d)
    (hbad : validateUser d.user = none ∨
      ∃ r ∈ d.schedules, validateSchedule r = none) :
    restore_user_data db uid = .error ⟨500, "Restore failed"⟩ := by
  unfold restore_user_data
  rw [hfind]
  rcases hbad with huser | ⟨r, hr, hrnone⟩
  · simp [huser]
  · cases hu : validateUser d.user <;>
      simp [hu, validateSchedules_eq_none hr hrnone]

/-- Concrete store whose one backup document holds a corrupt user
subdocument. -/
def corruptBackupDB : DB :=
  ⟨[⟨"u1", {}, [], "2024-06-01", "T0", "T0"⟩], []⟩

/-- Witness for C10: the backup document is found but its user fails
validation, so restore answers a 500. -/
theorem restore_no_partial_skip_witness :
    corruptBackupDB.backups.find? (fun b => b.user_id == "u1") =
      some ⟨"u1", {}, [], "2024-06-01", "T0", "T0"⟩ ∧
    (validateUser ({} : RawUser) = none ∨
      ∃ r ∈ ([] : List RawSchedule), validateSchedule r = none) ∧
    restore_user_data corruptBackupDB "u1" = .error ⟨500, "Restore failed"⟩ :=
  ⟨rfl, Or.inl rfl,
   restore_no_partial_skip corruptBackupDB "u1"
     ⟨"u1", {}, [], "2024-06-01", "T0", "T0"⟩ rfl (Or.inl rfl)⟩

/-- Validation does not invent an id: a validated model carries the id of
the stored document it was decoded from. -/
theorem validateSchedule_id {r : RawSchedule} {m : ScheduleModel}
    (h : validateSchedule r = some m) : r.id = some m.id := by
  unfold validateSchedule at h
  split at h
  all_goals first
    | (injection h with h
       subst h
       simp_all)
    | (exact absurd h (by simp))

/-- Filtering never increases the count of documents matching any
predicate. -/
theorem countP_filter_le {α : Type} (q g : α → Bool) (l : List α) :
    (l.filter g).countP q ≤ l.countP q := by
  induction l with
  | nil => simp
  | cons a as ih =>
    by_cases h : g a
    · simp [List.filter_cons, h, List.countP_cons]
      omega
    · simp [List.filter_cons, h, List.countP_cons]
      omega

/-- The list response never returns more schedules with a given id than the
store holds documents with that id field. -/
theorem countP_get_user_schedules_le (db : DB) (uid sid : String) :
    (get_user_schedules db uid).countP (fun m => m.id == sid) ≤
      db.schedules.countP (fun d => d.id == some sid) := by
  unfold get_user_schedules
  refine le_trans (countP_filterMap_le validateSchedule _
    (fun d => d.id == some sid) ?_ _) (countP_filter_le _ _ _)
  intro r m hv hm
  have hid := validateSchedule_id hv
  have hms : m.id = sid := by simpa using hm
  simp [hid, hms]

/-- Every single API call preserves at-most-one-document-per-natural-key in
both collections: backups replace by user id, schedule upserts replace by
schedule id, deletes only remove, reads do not write. -/
theorem inv_applyOp (db : DB) (op : Op)
    (hb : ∀ uid, db.backups.countP (fun b => b.user_id == uid) ≤ 1)
    (hs : ∀ sid, db.schedules.countP (fun d => d.id == some sid) ≤ 1) :
    (∀ uid, (applyOp db op).backups.countP (fun b => b.user_id == uid) ≤ 1) ∧
    (∀ sid, (applyOp db op).schedules.countP
      (fun d => d.id == some sid) ≤ 1) := by
  cases op with
  | backup data now =>
    refine ⟨?_, hs⟩
    intro uid
    simp only [applyOp, backup_user_data_db]
    by_cases h : uid = data.user.id
    · subst h
      rw [countP_replaceOne_self _ _ (by simp [mkBackupDoc])]
      have := hb data.user.id
      omega
    · have hq : ((mkBackupDoc data now).user_id == uid) = false := by
        simp [mkBackupDoc]
        exact fun he => h he.symm
      have hpq : ∀ a : BackupDoc, (a.user_id == data.user.id) = true →
          (a.user_id == uid) = false := by
        intro a ha
        have ha' : a.user_id = data.user.id := by simpa using ha
        simp [ha']
        exact fun he => h he.symm
      rw [countP_replaceOne_other (fun b => b.user_id == data.user.id)
        (fun b => b.user_id == uid) (mkBackupDoc data now) hq hpq]
      exact hb uid
  | upsertSchedule s now =>
    refine ⟨hb, ?_⟩
    intro sid
    simp only [applyOp, create_or_update_schedule_db]
    by_cases h : sid = s.id
    · subst h
      rw [countP_replaceOne_self _ _
        (by simp [upsertDoc, ScheduleModel.toRaw])]
      have := hs s.id
      omega
    · have hq : ((upsertDoc db s now).id == some sid) = false := by
        simp [upsertDoc, ScheduleModel.toRaw]
        exact fun he => h he.symm
      have hpq : ∀ a : RawSchedule, (a.id == some s.id) = true →
          (a.id == some sid) = false := by
        intro a ha
        have ha' : a.id = some s.id := by simpa using ha
        simp [ha']
        exact fun he => h he.symm
      rw [countP_replaceOne_other (fun d => d.id == some s.id)
        (fun d => d.id == some sid) (upsertDoc db s now) hq hpq]
      exact hs sid
  | restore uid => exact ⟨hb, hs⟩
  | listSchedules uid => exact ⟨hb, hs⟩
  | deleteSchedule sid =>
    refine ⟨hb, ?_⟩
    intro sid'
    simp only [applyOp, delete_schedule_db]
    exact le_trans (countP_deleteOne_le _ _ _) (hs sid')

/-- Key uniqueness propagates through any sequence of API calls. -/
theorem inv_applyOps (ops : List Op) (db : DB)
    (hb : ∀ uid, db.backups.countP (fun b => b.user_id == uid) ≤ 1)
    (hs : ∀ sid, db.schedules.countP (fun d => d.id == some sid) ≤ 1) :
    (∀ uid, (applyOps db ops).backups.countP
      (fun b => b.user_id == uid) ≤ 1) ∧
    (∀ sid, (applyOps db ops).schedules.countP
      (fun d => d.id == some sid) ≤ 1) := by
  induction ops generalizing db with
  | nil => exact ⟨hb, hs⟩
  | cons op ops ih =>
    have h := inv_applyOp db op hb hs
    simpa [applyOps] using ih (applyOp db op) h.1 h.2

/-- C2: after any sequence of API calls on an initially empty store, the
backups collection holds at most one document per user id, the schedules
collection holds at most one document per schedule id, and the list response
for any user never contains two schedules sharing an id. -/
theorem collections_unique_after_ops (ops : List Op) (uid sid : String) :
    (applyOps DB.empty ops).backups.countP (fun b => b.user_id == uid) ≤ 1 ∧
    (applyOps DB.empty ops).schedules.countP
      (fun d => d.id == some sid) ≤ 1 ∧
    (get_user_schedules (applyOps DB.empty ops) uid).countP
      (fun m => m.id == sid) ≤ 1 := by
  have h := inv_applyOps ops DB.empty (by simp [DB.empty]) (by simp [DB.empty])
  exact ⟨h.1 uid, h.2 sid,
    le_trans (countP_get_user_schedules_le _ uid sid) (h.2 sid)⟩

end PCare
